import Mathlib

/-!
Verification development for the event-aggregator repository
(`src/dedup_store.py`, `src/aggregator.py`, `src/model.py`).

The Python code is shallowly embedded: SQLite rows of the
`processed_events` table become a list of `ProcessedRecord`, the single
database connection becomes the `DeduplicationStore` structure, and the
async aggregator becomes explicit state passing over `EventAggregator`.
Wall-clock instants (`time.time()` / `datetime.now()`) are threaded as
explicit `Nat` parameters; the store's own clock (used to stamp
`processed_at` at insertion time) is a monotone counter inside the store.
All fallible paths of the original code either cannot fail
(`sqlite3.IntegrityError` is caught and turned into `False`;
`sqlite3.Connection.close` on an already-closed connection is a
documented no-op), so the embedded operations are total.
-/

/-- An incoming event (`model.py`, class `Event`).  The opaque `payload`
map is never read by the core and is not modelled. -/
structure Event where
  topic : String
  event_id : String
  timestamp : String
  source : String
deriving DecidableEq, Repr

/-- One row of the `processed_events` table
(`topic, event_id, timestamp, processed_at`, primary key
`(topic, event_id)`).  `processed_at` is the store-assigned insertion
instant. -/
structure ProcessedRecord where
  topic : String
  event_id : String
  timestamp : String
  processed_at : Nat
deriving DecidableEq, Repr

/-- The SQLite-backed deduplication store (`dedup_store.py`,
class `DeduplicationStore`): the table contents, the store's wall clock
used for `datetime.now(timezone.utc)` stamps, and whether the single
connection has been closed. -/
structure DeduplicationStore where
  records : List ProcessedRecord
  clock : Nat
  closed : Bool
deriving DecidableEq, Repr

namespace DeduplicationStore

/-- `__init__` + `_init_db`: connect to `db_path` and
`CREATE TABLE IF NOT EXISTS`.  `disk` is the table already persisted at
that path (`none` for a fresh database file); an existing table is kept
as is, a missing one starts empty.  `c` is the store clock at opening
time. -/
def init (disk : Option (List ProcessedRecord)) (c : Nat) : DeduplicationStore :=
  { records := disk.getD [], clock := c, closed := false }

/-- `_sync_check`: `SELECT 1 FROM processed_events WHERE topic = ? AND
event_id = ?`, i.e. does a row with this identity exist. -/
def _sync_check (s : DeduplicationStore) (topic event_id : String) : Bool :=
  s.records.any fun r => r.topic == topic && r.event_id == event_id

/-- `is_processed`: async wrapper around `_sync_check`. -/
def is_processed (s : DeduplicationStore) (topic event_id : String) : Bool :=
  s._sync_check topic event_id

/-- `_sync_mark`: `INSERT INTO processed_events VALUES (?,?,?,now)`
under the `(topic, event_id)` primary key; a key violation raises
`sqlite3.IntegrityError`, which is caught and returned as `False`.
`processed_at` is stamped from the store's clock at the moment of the
insertion (`datetime.now(timezone.utc).isoformat()`), never from the
caller-supplied `timestamp`. -/
def _sync_mark (s : DeduplicationStore) (topic event_id timestamp : String) :
    DeduplicationStore × Bool :=
  if s._sync_check topic event_id then
    (s, false)
  else
    ({ s with
        records := s.records ++ [⟨topic, event_id, timestamp, s.clock⟩],
        clock := s.clock + 1 },
     true)

/-- `mark_processed`: async wrapper around `_sync_mark`. -/
def mark_processed (s : DeduplicationStore) (topic event_id timestamp : String) :
    DeduplicationStore × Bool :=
  s._sync_mark topic event_id timestamp

/-- The `ORDER BY processed_at DESC` comparison of the fetch queries. -/
def newestFirst (a b : ProcessedRecord) : Bool :=
  decide (b.processed_at ≤ a.processed_at)

/-- `_sync_fetch_events`: `SELECT topic, event_id, timestamp,
processed_at FROM processed_events [WHERE topic = ?] ORDER BY
processed_at DESC`.  The `WHERE` clause is only added under Python
truthiness `if topic:`, so `None` and the empty string both mean "no
filter". -/
def _sync_fetch_events (s : DeduplicationStore) (topic : Option String) :
    List ProcessedRecord :=
  match topic with
  | some t =>
    if t = "" then
      s.records.mergeSort newestFirst
    else
      (s.records.filter fun r => r.topic == t).mergeSort newestFirst
  | none => s.records.mergeSort newestFirst

/-- `get_processed_events`: async wrapper around `_sync_fetch_events`. -/
def get_processed_events (s : DeduplicationStore) (topic : Option String) :
    List ProcessedRecord :=
  s._sync_fetch_events topic

/-- `_sync_get_stats`: `SELECT COUNT(*)` plus
`SELECT topic, COUNT(*) ... GROUP BY topic`. -/
def _sync_get_stats (s : DeduplicationStore) : Nat × List (String × Nat) :=
  (s.records.length,
   (s.records.map fun r => r.topic).dedup.map fun t =>
     (t, (s.records.filter fun r => r.topic == t).length))

/-- `get_stats`: async wrapper around `_sync_get_stats`. -/
def get_stats (s : DeduplicationStore) : Nat × List (String × Nat) :=
  s._sync_get_stats

/-- `_sync_clear`: `DELETE FROM processed_events`. -/
def _sync_clear (s : DeduplicationStore) : DeduplicationStore :=
  { s with records := [] }

/-- `close`: `self.conn.close()` under the lock.  Closing an
already-closed sqlite3 connection is a documented no-op, so `close` is
total and idempotent on the `closed` flag. -/
def close (s : DeduplicationStore) : DeduplicationStore :=
  { s with closed := true }

end DeduplicationStore

/-- The per-call result dict built by `EventAggregator.publish`. -/
structure PublishResult where
  accepted : Nat
  rejected : Nat
  duplicates_immediate : Nat
deriving DecidableEq, Repr

/-- The snapshot built by `EventAggregator.get_stats`
(`model.py`, class `StatsResponse`). -/
structure StatsResponse where
  received : Nat
  unique_processed : Nat
  duplicate_dropped : Nat
  topics : List (String × Nat)
  uptime : Nat
deriving DecidableEq, Repr

/-- The aggregator (`aggregator.py`, class `EventAggregator`): store
handle, in-memory FIFO queue, the `self.stats` counters (with
`start_time`), the `running` flag and the worker-task list (modelled by
its length). -/
structure EventAggregator where
  dedup_store : DeduplicationStore
  queue : List Event
  received : Nat
  unique_processed : Nat
  duplicate_dropped : Nat
  start_time : Nat
  running : Bool
  consumer_tasks : Nat
deriving DecidableEq, Repr

namespace EventAggregator

/-- `__init__`: empty queue, zeroed counters,
`start_time = time.time()` (= `now`, the construction instant),
not running, no consumer tasks yet. -/
def init (dedup_store : DeduplicationStore) (now : Nat) : EventAggregator :=
  { dedup_store := dedup_store, queue := [], received := 0,
    unique_processed := 0, duplicate_dropped := 0, start_time := now,
    running := false, consumer_tasks := 0 }

/-- `start`: if not already running, set `running` and spawn the 5
consumer tasks.  `_now` is the wall-clock instant of the invocation;
`start` never reads the clock, so the parameter is unused. -/
def start (a : EventAggregator) (_now : Nat) : EventAggregator :=
  if a.running then a
  else { a with running := true, consumer_tasks := 5 }

/-- `stop`: clear `running`; if consumer tasks were ever started, cancel
and await them (the task list itself is not cleared) and close the
store.  Cancelling finished tasks and closing a closed connection are
no-ops, so `stop` is total. -/
def stop (a : EventAggregator) : EventAggregator :=
  let a1 := { a with running := false }
  if a1.consumer_tasks ≠ 0 then
    { a1 with dedup_store := a1.dedup_store.close }
  else a1

/-- One iteration of the `for event in events` loop of `publish`:
increment `received`; if `is_processed` finds the identity, count it as
an immediate duplicate (never enqueued); otherwise enqueue it and count
it as accepted.  Duplicates raise no error on either branch. -/
def publishEvent (a : EventAggregator) (r : PublishResult) (e : Event) :
    EventAggregator × PublishResult :=
  let a1 := { a with received := a.received + 1 }
  if a1.dedup_store.is_processed e.topic e.event_id then
    ({ a1 with duplicate_dropped := a1.duplicate_dropped + 1 },
     { r with duplicates_immediate := r.duplicates_immediate + 1,
              rejected := r.rejected + 1 })
  else
    ({ a1 with queue := a1.queue ++ [e] },
     { r with accepted := r.accepted + 1 })

/-- The `for` loop of `publish`, threading the partial result dict. -/
def publishFrom (a : EventAggregator) (r : PublishResult) :
    List Event → EventAggregator × PublishResult
  | [] => (a, r)
  | e :: es =>
    let step := a.publishEvent r e
    publishFrom step.1 step.2 es

/-- `publish`: handle the events in list order starting from the zeroed
result dict. -/
def publish (a : EventAggregator) (events : List Event) :
    EventAggregator × PublishResult :=
  a.publishFrom ⟨0, 0, 0⟩ events

/-- `_process_event`: the authoritative `mark_processed`; a winning
insertion counts as `unique_processed`, a lost race as
`duplicate_dropped`. -/
def _process_event (a : EventAggregator) (e : Event) : EventAggregator :=
  let step := a.dedup_store.mark_processed e.topic e.event_id e.timestamp
  if step.2 then
    { a with dedup_store := step.1, unique_processed := a.unique_processed + 1 }
  else
    { a with dedup_store := step.1, duplicate_dropped := a.duplicate_dropped + 1 }

/-- One iteration of a worker loop (`_consume_events`): dequeue the next
event and `_process_event` it; an empty queue is a timeout and changes
nothing. -/
def consumeStep (a : EventAggregator) : EventAggregator :=
  match a.queue with
  | [] => a
  | e :: rest => _process_event { a with queue := rest } e

/-- `get_stats`: combine the in-memory counters with the store's
aggregate stats; `uptime = time.time() - self.stats[start_time]`, where
`now` is the wall-clock instant of the call. -/
def get_stats (a : EventAggregator) (now : Nat) : StatsResponse :=
  let store_stats := a.dedup_store.get_stats
  { received := a.received, unique_processed := a.unique_processed,
    duplicate_dropped := a.duplicate_dropped, topics := store_stats.2,
    uptime := now - a.start_time }

/-- `get_events`: fetch the processed records, optionally filtered by
topic.  The dict `{topic, event_id, timestamp, processed_at}` built per
row is exactly a `ProcessedRecord`. -/
def get_events (a : EventAggregator) (topic : Option String) :
    List ProcessedRecord :=
  a.dedup_store.get_processed_events topic

end EventAggregator

/-- An atomic action of the concurrent system: one publish-gate decision
for a single event (the `is_processed` check and its branch inside
`publish`), or one worker iteration.  Any interleaving of concurrent
`publish` calls and the 5 workers is a sequence of these actions. -/
inductive Act where
  | pub (e : Event)
  | consume
deriving DecidableEq, Repr

/-- Effect of one atomic action on the aggregator state. -/
def runAct (a : EventAggregator) : Act → EventAggregator
  | .pub e => (a.publishEvent ⟨0, 0, 0⟩ e).1
  | .consume => a.consumeStep

/-- Run a whole interleaving. -/
def run (a : EventAggregator) (acts : List Act) : EventAggregator :=
  acts.foldl runAct a

/-- The number of publish-gate actions in an interleaving (the total
number of events handed to `publish` calls). -/
def pubCount (acts : List Act) : Nat :=
  acts.countP fun act => match act with | .pub _ => true | .consume => false

/-- A fresh system: empty database file, store clock and construction
instant at 0, zeroed counters. -/
def freshAgg : EventAggregator :=
  EventAggregator.init (DeduplicationStore.init none 0) 0

/-! ### Concrete sample data used by the witnesses -/

/-- A sample event. -/
def e1 : Event := ⟨ "t", "i", "ts1", "src"⟩

/-- A second sample event with the same `(topic, event_id)` identity as
`e1` but a different caller timestamp. -/
def e2 : Event := ⟨ "t", "i", "ts2", "src"⟩

/-- A sample event with a different topic. -/
def e3 : Event := ⟨ "u", "j", "ts3", "src"⟩

/-- A store already holding the identity of `e1`. -/
def storeWithE1 : DeduplicationStore :=
  ⟨[⟨ "t", "i", "ts0", 0⟩], 1, false⟩

/-- An aggregator whose store already holds the identity of `e1`. -/
def aggWithE1 : EventAggregator :=
  EventAggregator.init storeWithE1 0

/-! ### Claim theorems -/

/-- C1: `_sync_mark` (the store's insert-if-absent) returns `true` iff
this call created the record (the identity was absent) and `false` iff a
record for `(topic, event_id)` already existed; in the latter case the
store is left completely unchanged (the losing call's timestamp never
overwrites anything) and no error escapes (`IntegrityError` is caught);
in the former case the new record carries the caller's `timestamp` but
its `processed_at` is the store's clock at the moment of insertion, not
a caller-supplied value. -/
theorem C1_mark_insert_if_absent (s : DeduplicationStore) (t i ts : String) :
    ((s._sync_mark t i ts).2 = true ↔ s._sync_check t i = false)
  ∧ ((s._sync_mark t i ts).2 = false ↔ s._sync_check t i = true)
  ∧ (s._sync_check t i = true → (s._sync_mark t i ts).1 = s)
  ∧ (s._sync_check t i = false →
        (s._sync_mark t i ts).1.records = s.records ++ [⟨t, i, ts, s.clock⟩]
      ∧ (s._sync_mark t i ts).1.clock = s.clock + 1) := by
  unfold DeduplicationStore._sync_mark
  by_cases h : s._sync_check t i <;> simp [h]

/-- Witness for C1 at concrete inputs: insertion into an empty store
succeeds, and a second call for an identity already present leaves the
store unchanged. -/
theorem C1_mark_insert_if_absent_witness :
    ((DeduplicationStore.init none 0)._sync_mark e1.topic e1.event_id e1.timestamp).2 = true
  ∧ (storeWithE1._sync_mark e2.topic e2.event_id e2.timestamp).1 = storeWithE1 :=
  ⟨(C1_mark_insert_if_absent (DeduplicationStore.init none 0)
      e1.topic e1.event_id e1.timestamp).1.mpr (by decide),
   (C1_mark_insert_if_absent storeWithE1
      e2.topic e2.event_id e2.timestamp).2.2.1 (by decide)⟩

/-- C4: each iteration of `publish` increments `received`; when the
store's existence check finds the identity it increments
`duplicates_immediate`, `rejected` and `duplicate_dropped` and the event
never enters the queue; otherwise the event is enqueued and `accepted`
is incremented; `publish` handles the events in list order (the head is
handled first, then the loop continues on the tail), and both branches
are ordinary returns — a duplicate raises no error. -/
theorem C4_publish_gate (a : EventAggregator) (r : PublishResult) (e : Event)
    (es : List Event) :
    (a.publish (e :: es)
       = ((a.publishEvent ⟨0, 0, 0⟩ e).1.publishFrom (a.publishEvent ⟨0, 0, 0⟩ e).2 es))
  ∧ ((a.publishEvent r e).1.received = a.received + 1)
  ∧ (a.dedup_store.is_processed e.topic e.event_id = true →
        (a.publishEvent r e).2.duplicates_immediate = r.duplicates_immediate + 1
      ∧ (a.publishEvent r e).2.rejected = r.rejected + 1
      ∧ (a.publishEvent r e).1.duplicate_dropped = a.duplicate_dropped + 1
      ∧ (a.publishEvent r e).1.queue = a.queue
      ∧ (a.publishEvent r e).2.accepted = r.accepted)
  ∧ (a.dedup_store.is_processed e.topic e.event_id = false →
        (a.publishEvent r e).1.queue = a.queue ++ [e]
      ∧ (a.publishEvent r e).2.accepted = r.accepted + 1
      ∧ (a.publishEvent r e).2.rejected = r.rejected
      ∧ (a.publishEvent r e).2.duplicates_immediate = r.duplicates_immediate
      ∧ (a.publishEvent r e).1.duplicate_dropped = a.duplicate_dropped) := by
  refine ⟨rfl, ?_, ?_, ?_⟩ <;>
    unfold EventAggregator.publishEvent <;>
    by_cases h : a.dedup_store.is_processed e.topic e.event_id <;>
    simp [h]

/-- Witness for C4 at concrete inputs: a fresh store accepts and
enqueues `e1`; a store already holding the identity rejects it as an
immediate duplicate. -/
theorem C4_publish_gate_witness :
    ((freshAgg.publishEvent ⟨0, 0, 0⟩ e1).1.queue = freshAgg.queue ++ [e1])
  ∧ ((aggWithE1.publishEvent ⟨0, 0, 0⟩ e1).2.rejected = 0 + 1) :=
  ⟨((C4_publish_gate freshAgg ⟨0, 0, 0⟩ e1 []).2.2.2 (by decide)).1,
   ((C4_publish_gate aggWithE1 ⟨0, 0, 0⟩ e1 []).2.2.1 (by decide)).2.1⟩

/-- C8: `stop` is idempotent — a repeated `stop` after a completed
`stop` changes nothing (re-cancelling finished workers and re-closing
the sqlite connection are no-ops and raise no error), leaving aggregator
and store state exactly as the first `stop` left them. -/
theorem C8_stop_idempotent (a : EventAggregator) :
    a.stop.stop = a.stop := by
  unfold EventAggregator.stop DeduplicationStore.close
  by_cases h : a.consumer_tasks = 0 <;> simp [h]

/-- C9: the empty string as a topic filter is Python-falsy
(`if topic:`), so `get_events ""` does not select records whose topic is
`""` — it returns the records of all topics, exactly as when no topic is
supplied. -/
theorem C9_empty_topic_is_no_filter (a : EventAggregator) :
    a.get_events (some "") = a.get_events none ∧
    a.dedup_store._sync_fetch_events (some "") = a.dedup_store._sync_fetch_events none := by
  constructor <;>
    simp [EventAggregator.get_events, DeduplicationStore.get_processed_events,
      DeduplicationStore._sync_fetch_events]

/-- How one publish-loop iteration moves the accumulators: shared
bookkeeping behind the `publish` frame conditions. -/
theorem publishEvent_effect (a : EventAggregator) (r : PublishResult) (e : Event) :
    ((a.publishEvent r e).2.accepted + (a.publishEvent r e).2.rejected
       = r.accepted + r.rejected + 1)
  ∧ ((a.publishEvent r e).2.rejected + r.duplicates_immediate
       = (a.publishEvent r e).2.duplicates_immediate + r.rejected)
  ∧ ((a.publishEvent r e).1.received = a.received + 1)
  ∧ ((a.publishEvent r e).1.unique_processed = a.unique_processed)
  ∧ ((a.publishEvent r e).1.dedup_store = a.dedup_store) := by
  unfold EventAggregator.publishEvent
  by_cases h : a.dedup_store.is_processed e.topic e.event_id <;> simp [h] <;> omega

/-- The publish loop, run from any partial result `r`: the result
counters grow by one per event, `rejected` and `duplicates_immediate`
grow in lockstep, `received` grows by the number of events, and neither
`unique_processed` nor the store is touched. -/
theorem publishFrom_effect (events : List Event) :
    ∀ (a : EventAggregator) (r : PublishResult),
      ((a.publishFrom r events).2.accepted + (a.publishFrom r events).2.rejected
         = r.accepted + r.rejected + events.length)
    ∧ ((a.publishFrom r events).2.rejected + r.duplicates_immediate
         = (a.publishFrom r events).2.duplicates_immediate + r.rejected)
    ∧ ((a.publishFrom r events).1.received = a.received + events.length)
    ∧ ((a.publishFrom r events).1.unique_processed = a.unique_processed)
    ∧ ((a.publishFrom r events).1.dedup_store = a.dedup_store) := by
  induction events with
  | nil => intro a r; simp [EventAggregator.publishFrom]; omega
  | cons e es ih =>
    intro a r
    obtain ⟨s1, s2, s3, s4, s5⟩ := publishEvent_effect a r e
    obtain ⟨h1, h2, h3, h4, h5⟩ := ih (a.publishEvent r e).1 (a.publishEvent r e).2
    refine ⟨?_, ?_, ?_, ?_, ?_⟩ <;>
      simp only [EventAggregator.publishFrom, List.length_cons] <;>
      [omega; omega; omega; rw [h4, s4]; rw [h5, s5]]

/-- C10: a `publish` call returns `accepted + rejected = |events|` with
`rejected = duplicates_immediate`, raises `received` by exactly
`|events|`, and leaves `unique_processed` unchanged — the gate alone
never counts an event as uniquely processed. -/
theorem C10_publish_result_frame (a : EventAggregator) (events : List Event) :
    (a.publish events).2.accepted + (a.publish events).2.rejected = events.length
  ∧ (a.publish events).2.rejected = (a.publish events).2.duplicates_immediate
  ∧ (a.publish events).1.received = a.received + events.length
  ∧ (a.publish events).1.unique_processed = a.unique_processed := by
  obtain ⟨h1, h2, h3, h4, h5⟩ := publishFrom_effect events a ⟨0, 0, 0⟩
  exact ⟨by simpa using h1, by simpa using h2, h3, h4⟩

/-- The `ORDER BY` comparison is transitive. -/
theorem newestFirst_trans (a b c : ProcessedRecord) :
    DeduplicationStore.newestFirst a b → DeduplicationStore.newestFirst b c →
    DeduplicationStore.newestFirst a c := by
  simp only [DeduplicationStore.newestFirst, decide_eq_true_eq]
  omega

/-- The `ORDER BY` comparison is total. -/
theorem newestFirst_total (a b : ProcessedRecord) :
    DeduplicationStore.newestFirst a b || DeduplicationStore.newestFirst b a := by
  simp only [DeduplicationStore.newestFirst, Bool.or_eq_true, decide_eq_true_eq]
  omega

/-- C5: for a (non-empty, per the data model) topic `t`,
`get_events (some t)` returns exactly the processed records whose topic
is `t` — a permutation of the filtered table — ordered by `processed_at`
descending (newest first); with no topic argument it returns all
processed records in the same descending order. -/
theorem C5_get_events_topic_filter (a : EventAggregator) (t : String)
    (ht : t ≠ "") :
    (a.get_events (some t)).Perm
        (a.dedup_store.records.filter fun r => r.topic == t)
  ∧ (a.get_events (some t)).Pairwise
        (fun r r' => r'.processed_at ≤ r.processed_at)
  ∧ (a.get_events none).Perm a.dedup_store.records
  ∧ (a.get_events none).Pairwise
        (fun r r' => r'.processed_at ≤ r.processed_at) := by
  have hs : ∀ l : List ProcessedRecord,
      (l.mergeSort DeduplicationStore.newestFirst).Pairwise
        (fun r r' => r'.processed_at ≤ r.processed_at) := by
    intro l
    refine (List.sorted_mergeSort newestFirst_trans newestFirst_total l).imp ?_
    intro x y hxy
    simpa [DeduplicationStore.newestFirst] using hxy
  simp only [EventAggregator.get_events, DeduplicationStore.get_processed_events,
    DeduplicationStore._sync_fetch_events, if_neg ht]
  exact ⟨List.mergeSort_perm _ _, hs _, List.mergeSort_perm _ _, hs _⟩

/-- Witness for C5 at a concrete input: the store holding the single
record of `e1`, filtered by the (non-empty) topic of `e1`. -/
theorem C5_get_events_topic_filter_witness :
    (aggWithE1.get_events (some e1.topic)).Perm
        (aggWithE1.dedup_store.records.filter fun r => r.topic == e1.topic)
  ∧ (aggWithE1.get_events (some e1.topic)).Pairwise
        (fun r r' => r'.processed_at ≤ r.processed_at)
  ∧ (aggWithE1.get_events none).Perm aggWithE1.dedup_store.records
  ∧ (aggWithE1.get_events none).Pairwise
        (fun r r' => r'.processed_at ≤ r.processed_at) :=
  C5_get_events_topic_filter aggWithE1 e1.topic (by decide)

/-- C6: an identity recorded by a store instance before `close` is
visible to a freshly-constructed `DeduplicationStore` opened on the same
persisted location (`close` flushes nothing away and `CREATE TABLE IF
NOT EXISTS` keeps the existing table): the new instance's existence
check still answers `true`, the data is unchanged by the restart, and
every persisted record appears in the new instance's query results. -/
theorem C6_durability_across_restart (s : DeduplicationStore) (c : Nat)
    (t i : String) (h : s._sync_check t i = true) :
    ((DeduplicationStore.init (some (s.close).records) c)._sync_check t i = true)
  ∧ ((DeduplicationStore.init (some (s.close).records) c).records = s.records)
  ∧ (∀ r ∈ s.records,
       r ∈ (DeduplicationStore.init (some (s.close).records) c)._sync_fetch_events none) := by
  refine ⟨?_, rfl, ?_⟩
  · simpa [DeduplicationStore.init, DeduplicationStore.close,
      DeduplicationStore._sync_check] using h
  · intro r hr
    simpa [DeduplicationStore.init, DeduplicationStore.close,
      DeduplicationStore._sync_fetch_events] using hr

/-- Witness for C6 at a concrete input: the store holding the record of
`e1`, reopened with a fresh clock. -/
theorem C6_durability_across_restart_witness :
    ((DeduplicationStore.init (some (storeWithE1.close).records) 5)._sync_check
        e1.topic e1.event_id = true)
  ∧ ((DeduplicationStore.init (some (storeWithE1.close).records) 5).records
        = storeWithE1.records)
  ∧ (∀ r ∈ storeWithE1.records,
       r ∈ (DeduplicationStore.init
              (some (storeWithE1.close).records) 5)._sync_fetch_events none) :=
  C6_durability_across_restart storeWithE1 5 e1.topic e1.event_id (by decide)

/-- C7 counterexample: the claim says `uptime` is the wall-clock time
elapsed since `start()` was invoked, but `start_time` is set by
`__init__`, not by `start` (which never reads the clock).  Construct the
aggregator at instant 0, invoke `start` at instant 5 and `get_stats` at
instant 7: the code reports `uptime = 7`, while the elapsed time since
`start()` is `7 - 5 = 2`. -/
theorem C7_uptime_counterexample :
    ((((EventAggregator.init (DeduplicationStore.init none 0) 0).start 5).get_stats 7).uptime = 7)
  ∧ (7 - 5 ≠
      (((EventAggregator.init (DeduplicationStore.init none 0) 0).start 5).get_stats 7).uptime) := by
  constructor <;> decide

/-- C7 (amended): `uptime` equals the wall-clock time elapsed since the
aggregator was constructed (`__init__` records `start_time`); invoking
`start` does not reset it, so it measures time since `start()` only when
`start()` happens at the construction instant. -/
theorem C7_uptime_since_construction (s : DeduplicationStore)
    (t0 ts now : Nat) (h : t0 ≤ now) :
    ((((EventAggregator.init s t0).start ts).get_stats now).uptime = now - t0)
  ∧ ((((EventAggregator.init s t0).start ts).get_stats now).uptime + t0 = now) := by
  simp only [EventAggregator.init, EventAggregator.start, EventAggregator.get_stats]
  norm_num
  omega

/-- Witness for C7's amended statement at concrete instants:
construction at 3, `start` at 5, `get_stats` at 10. -/
theorem C7_uptime_since_construction_witness :
    ((((EventAggregator.init (DeduplicationStore.init none 0) 3).start 5).get_stats 10).uptime = 10 - 3)
  ∧ ((((EventAggregator.init (DeduplicationStore.init none 0) 3).start 5).get_stats 10).uptime + 3 = 10) :=
  C7_uptime_since_construction (DeduplicationStore.init none 0) 3 5 10 (by decide)

/-! ### Trace-level reasoning for the drained-queue properties -/

/-- The state reached by a `publish` call is the state reached by the
corresponding sequence of atomic publish-gate actions: the threaded
result dict never influences the state, so batches decompose into
per-event actions and may interleave with worker actions. -/
theorem publishFrom_state_eq_run (events : List Event) :
    ∀ (a : EventAggregator) (r : PublishResult),
      (a.publishFrom r events).1 = run a (events.map Act.pub) := by
  induction events with
  | nil => intro a r; simp [EventAggregator.publishFrom, run]
  | cons e es ih =>
    intro a r
    have hstate : (a.publishEvent r e).1 = (a.publishEvent ⟨0, 0, 0⟩ e).1 := by
      unfold EventAggregator.publishEvent
      by_cases h : a.dedup_store.is_processed e.topic e.event_id <;> simp [h]
    simp only [EventAggregator.publishFrom, List.map_cons, run, List.foldl_cons]
    rw [ih _ (a.publishEvent r e).2, hstate]
    rfl

/-- Every atomic action preserves the conservation equation
`received = unique_processed + duplicate_dropped + |queue|`. -/
theorem runAct_conserve (a : EventAggregator) (act : Act)
    (h : a.received = a.unique_processed + a.duplicate_dropped + a.queue.length) :
    (runAct a act).received
      = (runAct a act).unique_processed + (runAct a act).duplicate_dropped
        + (runAct a act).queue.length := by
  cases act with
  | pub e =>
    simp only [runAct, EventAggregator.publishEvent]
    by_cases hc : a.dedup_store.is_processed e.topic e.event_id <;>
      simp [hc] <;> omega
  | consume =>
    simp only [runAct, EventAggregator.consumeStep]
    cases hq : a.queue with
    | nil => exact h
    | cons e rest =>
      have hlen : a.queue.length = rest.length + 1 := by rw [hq]; rfl
      simp only [EventAggregator._process_event]
      by_cases hm : (a.dedup_store.mark_processed e.topic e.event_id e.timestamp).2 <;>
        simp [hm] <;> omega

/-- Conservation holds along every interleaving. -/
theorem run_conserve (acts : List Act) :
    ∀ a, a.received = a.unique_processed + a.duplicate_dropped + a.queue.length →
      (run a acts).received
        = (run a acts).unique_processed + (run a acts).duplicate_dropped
          + (run a acts).queue.length := by
  induction acts with
  | nil => intro a h; simpa [run] using h
  | cons act acts ih =>
    intro a h
    have h1 := runAct_conserve a act h
    simpa [run] using ih (runAct a act) h1

/-- C3: after any sequence of publish-gate decisions and worker steps
that ends with the queue fully drained, the counters satisfy
`received = unique_processed + duplicate_dropped` — each received event
was counted exactly once, either as unique or as dropped. -/
theorem C3_counter_conservation (acts : List Act)
    (hdrain : (run freshAgg acts).queue = []) :
    (run freshAgg acts).received
      = (run freshAgg acts).unique_processed
        + (run freshAgg acts).duplicate_dropped := by
  have h := run_conserve acts freshAgg (by simp [freshAgg, EventAggregator.init])
  rw [hdrain] at h
  simpa using h

/-- Witness for C3 on a concrete drained trace: two same-identity
events published, then two worker steps. -/
theorem C3_counter_conservation_witness :
    (run freshAgg [Act.pub e1, Act.consume, Act.pub e2, Act.consume]).received
      = (run freshAgg [Act.pub e1, Act.consume, Act.pub e2, Act.consume]).unique_processed
        + (run freshAgg [Act.pub e1, Act.consume, Act.pub e2, Act.consume]).duplicate_dropped :=
  C3_counter_conservation [Act.pub e1, Act.consume, Act.pub e2, Act.consume] (by decide)

/-- A publish-gate action carries the identity `(t, i)` (worker actions
carry no event). -/
def actIdOk (t i : String) : Act → Prop
  | .pub e => e.topic = t ∧ e.event_id = i
  | .consume => True

instance (t i : String) (act : Act) : Decidable (actIdOk t i act) :=
  match act with
  | .pub _ => inferInstanceAs (Decidable (_ ∧ _))
  | .consume => inferInstanceAs (Decidable True)

/-- When every stored record carries the identity `(t, i)`, the
existence check for `(t, i)` answers `true` exactly when the table is
non-empty. -/
theorem _sync_check_of_all (s : DeduplicationStore) (t i : String)
    (hall : ∀ r ∈ s.records, r.topic = t ∧ r.event_id = i) :
    (s._sync_check t i = true ↔ s.records ≠ []) := by
  unfold DeduplicationStore._sync_check
  rw [List.any_eq_true]
  constructor
  · rintro ⟨r, hr, -⟩ hnil
    rw [hnil] at hr
    exact (List.not_mem_nil r) hr
  · intro hne
    cases hq : s.records with
    | nil => exact absurd hq hne
    | cons r rest =>
      obtain ⟨h1, h2⟩ := hall r (by rw [hq]; exact List.mem_cons_self r rest)
      exact ⟨r, List.mem_cons_self r rest, by simp [h1, h2]⟩

/-- Invariant of the single-identity idempotency argument: every queued
event and every stored record carries the identity `(t, i)`, the store
holds at most one record and `unique_processed` counts exactly those
records, the conservation equation holds, and once at least one event
was received the identity is present in the store or still queued. -/
structure IdemInv (t i : String) (a : EventAggregator) : Prop where
  queue_id : ∀ e ∈ a.queue, e.topic = t ∧ e.event_id = i
  store_id : ∀ r ∈ a.dedup_store.records, r.topic = t ∧ r.event_id = i
  uniq_count : a.unique_processed = a.dedup_store.records.length
  uniq_le : a.dedup_store.records.length ≤ 1
  conserve : a.received = a.unique_processed + a.duplicate_dropped + a.queue.length
  live : 1 ≤ a.received → a.dedup_store.records ≠ [] ∨ a.queue ≠ []

/-- State reached by one publish-gate iteration on a known duplicate. -/
theorem publishEvent_dup_state (a : EventAggregator) (r : PublishResult) (e : Event)
    (ht : a.dedup_store.is_processed e.topic e.event_id = true) :
    (a.publishEvent r e).1
      = { a with received := a.received + 1,
                 duplicate_dropped := a.duplicate_dropped + 1 } := by
  unfold EventAggregator.publishEvent
  simp [ht]

/-- State reached by one publish-gate iteration on an unseen identity. -/
theorem publishEvent_acc_state (a : EventAggregator) (r : PublishResult) (e : Event)
    (hf : a.dedup_store.is_processed e.topic e.event_id = false) :
    (a.publishEvent r e).1
      = { a with received := a.received + 1, queue := a.queue ++ [e] } := by
  unfold EventAggregator.publishEvent
  simp [hf]

/-- State reached by `_process_event` when the authoritative insertion
wins. -/
theorem _process_event_new_state (a : EventAggregator) (e : Event)
    (hf : a.dedup_store._sync_check e.topic e.event_id = false) :
    a._process_event e
      = { a with
          dedup_store := { a.dedup_store with
            records := a.dedup_store.records
              ++ [(⟨e.topic, e.event_id, e.timestamp, a.dedup_store.clock⟩ : ProcessedRecord)],
            clock := a.dedup_store.clock + 1 },
          unique_processed := a.unique_processed + 1 } := by
  unfold EventAggregator._process_event DeduplicationStore.mark_processed
    DeduplicationStore._sync_mark
  simp [hf]

/-- State reached by `_process_event` when the identity already exists
in the store. -/
theorem _process_event_dup_state (a : EventAggregator) (e : Event)
    (ht : a.dedup_store._sync_check e.topic e.event_id = true) :
    a._process_event e
      = { a with duplicate_dropped := a.duplicate_dropped + 1 } := by
  unfold EventAggregator._process_event DeduplicationStore.mark_processed
    DeduplicationStore._sync_mark
  simp [ht]

/-- Every atomic action of a single-identity run preserves `IdemInv`. -/
theorem idemInv_step (t i : String) (a : EventAggregator) (act : Act)
    (hid : actIdOk t i act) (inv : IdemInv t i a) :
    IdemInv t i (runAct a act) := by
  have hcheck := _sync_check_of_all a.dedup_store t i inv.store_id
  cases act with
  | pub e =>
    obtain ⟨het, hei⟩ := hid
    simp only [runAct]
    by_cases hc : a.dedup_store.records = []
    · have hf : a.dedup_store.is_processed e.topic e.event_id = false := by
        unfold DeduplicationStore.is_processed
        rw [het, hei]
        cases hb : a.dedup_store._sync_check t i
        · rfl
        · exact absurd (hcheck.mp hb) (by simp [hc])
      rw [publishEvent_acc_state a ⟨0, 0, 0⟩ e hf]
      refine ⟨?_, inv.store_id, inv.uniq_count, inv.uniq_le, ?_, ?_⟩
      · intro x hx
        rcases List.mem_append.mp hx with hx | hx
        · exact inv.queue_id x hx
        · rcases List.mem_singleton.mp hx with rfl
          exact ⟨het, hei⟩
      · show a.received + 1
          = a.unique_processed + a.duplicate_dropped + (a.queue ++ [e]).length
        have := inv.conserve
        simp only [List.length_append, List.length_singleton]
        omega
      · intro _
        refine Or.inr ?_
        show a.queue ++ [e] ≠ []
        simp
    · have ht : a.dedup_store.is_processed e.topic e.event_id = true := by
        unfold DeduplicationStore.is_processed
        rw [het, hei]
        exact hcheck.mpr hc
      rw [publishEvent_dup_state a ⟨0, 0, 0⟩ e ht]
      refine ⟨inv.queue_id, inv.store_id, inv.uniq_count, inv.uniq_le, ?_, ?_⟩
      · show a.received + 1
          = a.unique_processed + (a.duplicate_dropped + 1) + a.queue.length
        have := inv.conserve
        omega
      · intro _
        exact Or.inl hc
  | consume =>
    simp only [runAct, EventAggregator.consumeStep]
    cases hq : a.queue with
    | nil => exact inv
    | cons e rest =>
      have hmem : e ∈ a.queue := by rw [hq]; exact List.mem_cons_self e rest
      obtain ⟨het, hei⟩ := inv.queue_id e hmem
      have hrest : ∀ x ∈ rest, x.topic = t ∧ x.event_id = i := by
        intro x hx
        exact inv.queue_id x (by rw [hq]; exact List.mem_cons_of_mem e hx)
      have hlen : a.queue.length = rest.length + 1 := by rw [hq]; rfl
      show IdemInv t i ({ a with queue := rest }._process_event e)
      by_cases hc : a.dedup_store.records = []
      · have hf : a.dedup_store._sync_check e.topic e.event_id = false := by
          rw [het, hei]
          cases hb : a.dedup_store._sync_check t i
          · rfl
          · exact absurd (hcheck.mp hb) (by simp [hc])
        rw [_process_event_new_state { a with queue := rest } e hf]
        refine ⟨hrest, ?_, ?_, ?_, ?_, ?_⟩
        · intro r hr
          rcases List.mem_append.mp hr with hr | hr
          · exact inv.store_id r hr
          · rcases List.mem_singleton.mp hr with rfl
            exact ⟨het, hei⟩
        · show a.unique_processed + 1
            = (a.dedup_store.records
                ++ [(⟨e.topic, e.event_id, e.timestamp, a.dedup_store.clock⟩ : ProcessedRecord)]).length
          have := inv.uniq_count
          simp only [List.length_append, List.length_singleton]
          omega
        · show (a.dedup_store.records
              ++ [(⟨e.topic, e.event_id, e.timestamp, a.dedup_store.clock⟩ : ProcessedRecord)]).length ≤ 1
          simp [hc]
        · show a.received
            = (a.unique_processed + 1) + a.duplicate_dropped + rest.length
          have := inv.conserve
          omega
        · intro _
          refine Or.inl ?_
          show a.dedup_store.records
              ++ [(⟨e.topic, e.event_id, e.timestamp, a.dedup_store.clock⟩ : ProcessedRecord)] ≠ []
          simp
      · have ht : a.dedup_store._sync_check e.topic e.event_id = true := by
          rw [het, hei]
          exact hcheck.mpr hc
        rw [_process_event_dup_state { a with queue := rest } e ht]
        refine ⟨hrest, inv.store_id, inv.uniq_count, inv.uniq_le, ?_, ?_⟩
        · show a.received
            = a.unique_processed + (a.duplicate_dropped + 1) + rest.length
          have := inv.conserve
          omega
        · intro _
          exact Or.inl hc

/-- `IdemInv` holds after any single-identity interleaving. -/
theorem idemInv_run (t i : String) (acts : List Act) :
    ∀ a, (∀ act ∈ acts, actIdOk t i act) → IdemInv t i a →
      IdemInv t i (run a acts) := by
  induction acts with
  | nil => intro a _ inv; simpa [run] using inv
  | cons act acts ih =>
    intro a hall inv
    have h1 : IdemInv t i (runAct a act) :=
      idemInv_step t i a act (hall act (List.mem_cons_self act acts)) inv
    have h2 := ih (runAct a act)
      (fun x hx => hall x (List.mem_cons_of_mem act hx)) h1
    simpa [run] using h2

/-- One atomic action raises `received` by one exactly for publish-gate
actions. -/
theorem runAct_received (a : EventAggregator) (act : Act) :
    (runAct a act).received = a.received + pubCount [act] := by
  cases act with
  | pub e =>
    simp only [runAct, EventAggregator.publishEvent, pubCount, List.countP_cons,
      List.countP_nil]
    by_cases hc : a.dedup_store.is_processed e.topic e.event_id <;> simp [hc]
  | consume =>
    simp only [runAct, EventAggregator.consumeStep, pubCount, List.countP_cons,
      List.countP_nil]
    cases hq : a.queue with
    | nil => simp
    | cons e rest =>
      simp only [EventAggregator._process_event]
      by_cases hm : (a.dedup_store.mark_processed e.topic e.event_id e.timestamp).2 <;>
        simp [hm]

/-- `received` counts exactly the publish-gate actions of a run. -/
theorem run_received (acts : List Act) :
    ∀ a, (run a acts).received = a.received + pubCount acts := by
  induction acts with
  | nil => intro a; simp [run, pubCount]
  | cons act acts ih =>
    intro a
    have h1 := runAct_received a act
    have h2 := ih (runAct a act)
    have h3 : pubCount (act :: acts) = pubCount [act] + pubCount acts := by
      simp [pubCount, List.countP_cons]
      omega
    simp only [run, List.foldl_cons] at h2 ⊢
    omega

/-- C2: publishing the same identity `(t, i)` N times in total (N ≥ 1),
distributed across any number of `publish` calls and interleaved with
any number of worker steps, yields — once the queue is fully drained —
`unique_processed = 1` and `duplicate_dropped = N - 1`, starting from an
empty store and zeroed counters. -/
theorem C2_idempotency (t i : String) (acts : List Act) (N : Nat)
    (hall : ∀ act ∈ acts, actIdOk t i act)
    (hN : pubCount acts = N) (hN1 : 1 ≤ N)
    (hdrain : (run freshAgg acts).queue = []) :
    (run freshAgg acts).unique_processed = 1
  ∧ (run freshAgg acts).duplicate_dropped = N - 1 := by
  have inv0 : IdemInv t i freshAgg := by
    refine ⟨?_, ?_, ?_, ?_, ?_, ?_⟩ <;>
      simp [freshAgg, EventAggregator.init, DeduplicationStore.init]
  have inv := idemInv_run t i acts freshAgg hall inv0
  have hrec : (run freshAgg acts).received = N := by
    have h := run_received acts freshAgg
    have h0 : freshAgg.received = 0 := rfl
    omega
  have hne : (run freshAgg acts).dedup_store.records ≠ [] := by
    rcases inv.live (by omega) with h | h
    · exact h
    · exact absurd hdrain h
  have hpos : 1 ≤ (run freshAgg acts).dedup_store.records.length :=
    List.length_pos.mpr hne
  have hlen : (run freshAgg acts).dedup_store.records.length = 1 := by
    have := inv.uniq_le
    omega
  have huniq : (run freshAgg acts).unique_processed = 1 := by
    rw [inv.uniq_count, hlen]
  refine ⟨huniq, ?_⟩
  have hcons := inv.conserve
  rw [hdrain] at hcons
  simp only [List.length_nil] at hcons
  omega

/-- Witness for C2 on a concrete drained trace: the identity of `e1`
published twice (once as `e1`, once as the same-identity `e2`), then two
worker steps; `N = 2`. -/
theorem C2_idempotency_witness :
    (run freshAgg [Act.pub e1, Act.pub e2, Act.consume, Act.consume]).unique_processed = 1
  ∧ (run freshAgg [Act.pub e1, Act.pub e2, Act.consume, Act.consume]).duplicate_dropped = 2 - 1 :=
  C2_idempotency e1.topic e1.event_id
    [Act.pub e1, Act.pub e2, Act.consume, Act.consume] 2
    (by decide) (by decide) (by decide) (by decide)
